import Mathlib

/-!
Verification of the CogniFlow adaptive-learning engines: Bayesian knowledge
tracing (mastery engine), the 3-parameter-logistic IRT ability estimator, the
behavioral analyzer (guessing / cheating / Socratic-trigger policy), and the
knowledge-graph builder with greedy Louvain community detection.

The definitions below are a shallow embedding of the TypeScript sources
(`knowledge-graph-engine.ts`, `lms-store.ts` behavioral/IRT modules, and the
galaxy BKT module).  JavaScript numbers are modelled as `ℚ` where the source
computes only rational arithmetic and as `ℝ` where it calls `Math.exp` /
`Math.sqrt`.  JavaScript `Map`s are modelled as insertion-ordered association
lists (`assocGet` / `assocSet`), matching `Map`'s ordering semantics:
`set` updates an existing key in place and appends a fresh key at the end.
`Date.now()` is modelled as an explicit `now` argument to the functions that
read the clock (`buildGraph`, `updateStability`).
-/

-- ── Association-list model of JavaScript `Map` ─────────────────────────────

def assocGet {α β : Type} [DecidableEq α] : List (α × β) → α → Option β
  | [], _ => none
  | (k, v) :: rest, k' => if k = k' then some v else assocGet rest k'

def assocSet {α β : Type} [DecidableEq α] : List (α × β) → α → β → List (α × β)
  | [], k, v => [(k, v)]
  | (k', v') :: rest, k, v =>
      if k' = k then (k, v) :: rest else (k', v') :: assocSet rest k v

/-- JavaScript `String.prototype.toLowerCase()`: lower-case each character.
(Same as Lean's `String.toLower`, spelled out so that concrete instances
reduce in the kernel.) -/
def strToLower (s : String) : String := ⟨s.data.map Char.toLower⟩

-- ── Session logs (knowledge-graph-engine.ts `SessionLog`) ──────────────────

structure SessionLog where
  concept : String
  category : String
  isCorrect : Bool
  responseTimeMs : ℚ
  masteryPL : ℚ
  timestamp : ℚ
deriving DecidableEq

/-- Day bucket of a log: `Math.floor(log.timestamp / 86400000)`. -/
def dayOf (l : SessionLog) : ℤ := ⌊l.timestamp / 86400000⌋

-- ── Edge-weight constants (ALPHA, BETA, GAMMA) ─────────────────────────────

def ALPHA : ℚ := 0.5
def BETA : ℚ := 0.3
def GAMMA : ℚ := 0.2

/-- The hand-coded curriculum DAG `PREREQUISITE_STRENGTH`. -/
def PREREQUISITE_STRENGTH : List (String × List (String × ℚ)) :=
  [ ("limits", [("derivatives", 0.95), ("continuity", 0.85)]),
    ("derivatives", [("integration", 0.90), ("differential equations", 0.80)]),
    ("integration", [("differential equations", 0.85)]),
    ("algebra", [("calculus", 0.80), ("linear algebra", 0.75)]),
    ("calculus", [("differential equations", 0.80), ("statistics", 0.60)]),
    ("linear algebra", [("statistics", 0.70), ("algorithms", 0.55)]),
    ("statistics", [("machine learning", 0.80), ("probability", 0.85)]),
    ("probability", [("statistics", 0.75)]),
    ("kinematics", [("newton\x27s laws", 0.90), ("energy", 0.70)]),
    ("newton\x27s laws", [("energy", 0.85), ("momentum", 0.80), ("waves", 0.60)]),
    ("energy", [("thermodynamics", 0.70), ("waves", 0.65)]),
    ("waves", [("optics", 0.80), ("electromagnetism", 0.60)]),
    ("data structures", [("algorithms", 0.90), ("graph theory", 0.75)]),
    ("algorithms", [("graph theory", 0.70), ("machine learning", 0.60)]),
    ("graph theory", [("algorithms", 0.65)]) ]

/-- `PREREQUISITE_STRENGTH[a]?.[b] ?? PREREQUISITE_STRENGTH[b]?.[a] ?? 0`. -/
def prerequisiteStrength (conceptA conceptB : String) : ℚ :=
  let a := strToLower conceptA
  let b := strToLower conceptB
  (((assocGet PREREQUISITE_STRENGTH a).bind (fun m => assocGet m b)).orElse
    (fun _ => (assocGet PREREQUISITE_STRENGTH b).bind (fun m => assocGet m a))).getD 0

/-- Does day bucket `d` contain concept `c`?  (Membership in the per-day
concept set the source accumulates into its `sessions` map.) -/
def dayHasConcept (logs : List SessionLog) (d : ℤ) (c : String) : Bool :=
  logs.any (fun l => dayOf l = d && strToLower l.concept = c)

/-- First-occurrence deduplication, matching JavaScript `Map` key order. -/
def firstDedupAux {α : Type} [DecidableEq α] : List α → List α → List α
  | [], _ => []
  | x :: xs, seen =>
      if x ∈ seen then firstDedupAux xs seen
      else x :: firstDedupAux xs (x :: seen)

def firstDedup {α : Type} [DecidableEq α] (l : List α) : List α := firstDedupAux l []

/-- Co-occurrence rate: fraction of distinct calendar days containing either
concept that contain both (`coOccurrenceRate` in the source). -/
def coOccurrenceRate (conceptA conceptB : String) (logs : List SessionLog) : ℚ :=
  let a := strToLower conceptA
  let b := strToLower conceptB
  let days := firstDedup (logs.map dayOf)
  let eitherOccur := (days.filter
    (fun d => dayHasConcept logs d a || dayHasConcept logs d b)).length
  let coOccur := (days.filter
    (fun d => dayHasConcept logs d a && dayHasConcept logs d b)).length
  if eitherOccur > 0 then (coOccur : ℚ) / eitherOccur else 0

/-- `confusionCorrelation`: the number of wrong-on-B log entries lying in a
day bucket that contains a wrong-on-A entry, divided by the number of
wrong-on-A log entries. -/
def confusionCorrelation (conceptA conceptB : String) (logs : List SessionLog) : ℚ :=
  let wrongA := logs.filter (fun l => strToLower l.concept = strToLower conceptA && !l.isCorrect)
  if wrongA.length = 0 then 0
  else
    let wrongASessions := wrongA.map dayOf
    let wrongBInSameSession := logs.filter (fun l =>
      strToLower l.concept = strToLower conceptB && !l.isCorrect &&
      wrongASessions.contains (dayOf l))
    (wrongBInSameSession.length : ℚ) / wrongA.length

/-- `calculateEdgeWeight`: w = ALPHA*prereq + BETA*coOccur + GAMMA*confusion. -/
def calculateEdgeWeight (conceptA conceptB : String) (logs : List SessionLog) : ℚ :=
  ALPHA * prerequisiteStrength conceptA conceptB
    + BETA * coOccurrenceRate conceptA conceptB logs
    + GAMMA * confusionCorrelation conceptA conceptB logs

-- ── Mastery engine (BKT, knowledge-graph-engine.ts mastery module) ─────────

def P_INIT : ℚ := 0.3
def P_LEARN : ℚ := 0.09
def P_GUESS : ℚ := 0.2
def P_SLIP : ℚ := 0.1

/-- `updateMastery`: BKT posterior plus learning transition, clamped to
`[0.0001, 0.9999]`.  JavaScript `x || 1e-9` substitutes the epsilon exactly
when the denominator is `0`. -/
def updateMastery (prevPL : ℚ) (correct : Bool) : ℚ :=
  let pCorrect := prevPL * (1 - P_SLIP) + (1 - prevPL) * P_GUESS
  let pWrong := prevPL * P_SLIP + (1 - prevPL) * (1 - P_GUESS)
  let pLGivenObs :=
    if correct then prevPL * (1 - P_SLIP) / (if pCorrect = 0 then 1e-9 else pCorrect)
    else prevPL * P_SLIP / (if pWrong = 0 then 1e-9 else pWrong)
  let pLNext := pLGivenObs + (1 - pLGivenObs) * P_LEARN
  min 0.9999 (max 0.0001 pLNext)

-- ── Galaxy BKT (unnamed part_000, `bktUpdate`) ─────────────────────────────

def BKT_P_LEARN : ℚ := 0.3
def BKT_P_GUESS : ℚ := 0.2
def BKT_P_SLIP : ℚ := 0.1

/-- `bktUpdate` from the galaxy visualization module: same Bayesian update
with pLearn = 0.3 and no output clamp. -/
def bktUpdate (pL : ℚ) (isCorrect : Bool) : ℚ :=
  let pCorrect := pL * (1 - BKT_P_SLIP) + (1 - pL) * BKT_P_GUESS
  let pWrong := pL * BKT_P_SLIP + (1 - pL) * (1 - BKT_P_GUESS)
  let pLGivenObs :=
    if isCorrect then pL * (1 - BKT_P_SLIP) / pCorrect
    else pL * BKT_P_SLIP / pWrong
  pLGivenObs + (1 - pLGivenObs) * BKT_P_LEARN

-- ── Louvain community detection (`louvainCluster`) ─────────────────────────

/-- Undirected weighted edge as consumed by `louvainCluster`. -/
structure WEdge where
  source : String
  target : String
  weight : ℚ
deriving DecidableEq

/-- `communities`: JavaScript `Map<string, number>` of node to community id. -/
abbrev CommMap := List (String × ℕ)

/-- `nodes.forEach((n, i) => communities.set(n, i))`. -/
def initCommsAux : List String → ℕ → CommMap → CommMap
  | [], _, m => m
  | n :: rest, i, m => initCommsAux rest (i + 1) (assocSet m n i)

def initComms (nodes : List String) : CommMap := initCommsAux nodes 0 []

/-- Adjacency: node → insertion-ordered neighbor/weight map. -/
abbrev AdjMap := List (String × List (String × ℚ))

/-- `adj.get(u)?.set(v, (adj.get(u)?.get(v) ?? 0) + w)` — a no-op when `u` is
not a key (the optional-chaining semantics of the source). -/
def adjInsert (m : AdjMap) (u v : String) (w : ℚ) : AdjMap :=
  match assocGet m u with
  | none => m
  | some nbrs => assocSet m u (assocSet nbrs v (((assocGet nbrs v).getD 0) + w))

def buildAdj (nodes : List String) (edges : List WEdge) : AdjMap :=
  let init := nodes.foldl (fun m n => assocSet m n []) []
  edges.foldl (fun m e =>
    adjInsert (adjInsert m e.source e.target e.weight) e.target e.source e.weight) init

/-- Node degree: sum of incident weights (the source's `degree` map). -/
def nodeDegree (adj : AdjMap) (n : String) : ℚ :=
  (((assocGet adj n).getD []).map Prod.snd).sum

/-- `weightToCom`: sum of weights from the node to each community, keyed by
community id in first-encounter order. -/
def weightToComOf (comms : CommMap) (nbrs : List (String × ℚ)) : List (ℕ × ℚ) :=
  nbrs.foldl (fun acc p =>
    let nCom := (assocGet comms p.1).getD 0
    assocSet acc nCom (((assocGet acc nCom).getD 0) + p.2)) []

/-- `degSumInCom`: sum of degrees of the nodes of each community. -/
def degSumInComOf (nodes : List String) (adj : AdjMap) (comms : CommMap) :
    List (ℕ × ℚ) :=
  nodes.foldl (fun acc n =>
    let c := (assocGet comms n).getD 0
    assocSet acc c (((assocGet acc c).getD 0) + nodeDegree adj n)) []

/-- Greedy move selection: first community with strictly larger modularity
gain wins (`if (gain > bestGain)`), starting from gain 0 at the current
community. -/
def bestCommunity (wtc : List (ℕ × ℚ)) (degSum : List (ℕ × ℚ))
    (currentCom : ℕ) (kI totalWeight m2 : ℚ) : ℕ :=
  (wtc.foldl (fun (best : ℚ × ℕ) p =>
    let sigma := ((assocGet degSum p.1).getD 0) - (if p.1 = currentCom then kI else 0)
    let gain := p.2 / totalWeight - sigma * kI / (m2 * m2)
    if best.1 < gain then (gain, p.1) else best) (0, currentCom)).2

/-- Body of the `for (const node of nodes)` loop: possibly move one node and
report whether it moved.  `assocGet comms node` is always `some` for the
nodes the loop visits (the non-null assertion of the source). -/
def stepNode (nodes : List String) (adj : AdjMap) (totalWeight : ℚ)
    (comms : CommMap) (node : String) : CommMap × Bool :=
  let currentCom := (assocGet comms node).getD 0
  let kI := nodeDegree adj node
  let wtc := weightToComOf comms ((assocGet adj node).getD [])
  let degSum := degSumInComOf nodes adj comms
  let m2 := 2 * totalWeight
  let bestCom := bestCommunity wtc degSum currentCom kI totalWeight m2
  if bestCom ≠ currentCom then (assocSet comms node bestCom, true) else (comms, false)

/-- Accumulation step of the pass: thread the community map through
`stepNode` and or-accumulate the `improved` flag. -/
def passStep (nodes : List String) (adj : AdjMap) (totalWeight : ℚ)
    (acc : CommMap × Bool) (node : String) : CommMap × Bool :=
  ((stepNode nodes adj totalWeight acc.1 node).1,
   acc.2 || (stepNode nodes adj totalWeight acc.1 node).2)

/-- One full pass over `nodes`; the `improved` flag records whether any node
moved during the pass. -/
def louvainPass (nodes : List String) (adj : AdjMap) (totalWeight : ℚ)
    (comms : CommMap) : CommMap × Bool :=
  nodes.foldl (passStep nodes adj totalWeight) (comms, false)

/-- `while (improved && maxIterations-- > 0)` with `maxIterations = 20`:
bounded iteration is structural recursion on the remaining fuel. -/
def louvainLoop (nodes : List String) (adj : AdjMap) (totalWeight : ℚ) :
    ℕ → CommMap → CommMap
  | 0, comms => comms
  | fuel + 1, comms =>
      if (louvainPass nodes adj totalWeight comms).2 then
        louvainLoop nodes adj totalWeight fuel (louvainPass nodes adj totalWeight comms).1
      else (louvainPass nodes adj totalWeight comms).1

/-- Renumber surviving community ids densely from 0 in first-appearance
order (the source's trailing `idMap` loop). -/
def renumberAux : CommMap → List (ℕ × ℕ) → ℕ → CommMap
  | [], _, _ => []
  | (n, c) :: rest, idMap, next =>
      match assocGet idMap c with
      | some newId => (n, newId) :: renumberAux rest idMap next
      | none => (n, next) :: renumberAux rest (assocSet idMap c next) (next + 1)

def renumber (comms : CommMap) : CommMap := renumberAux comms [] 0

/-- `louvainCluster`: greedy bounded Louvain modularity optimization. -/
def louvainCluster (nodes : List String) (edges : List WEdge) : CommMap :=
  let communities := initComms nodes
  let totalWeight := (edges.map WEdge.weight).sum
  if totalWeight = 0 then communities
  else
    let adj := buildAdj nodes edges
    renumber (louvainLoop nodes adj totalWeight 20 communities)

-- ── Graph builder (`buildGraph`) ───────────────────────────────────────────

inductive EdgeType
  | prerequisite
  | similar
  | application
deriving DecidableEq

structure GraphEdge where
  source : String
  target : String
  weight : ℚ
  prerequisiteStrength : ℚ
  coOccurrenceRate : ℚ
  confusionCorrelation : ℚ
  type : EdgeType
deriving DecidableEq

/-- Keys of the source's `conceptMap` in first-insertion order. -/
def conceptIdsOf (logs : List SessionLog) : List String :=
  firstDedup (logs.map (fun l => strToLower l.concept))

/-- `conceptMap.get(id)`: the logs pushed for a concept, in order. -/
def logsFor (logs : List SessionLog) (id : String) : List SessionLog :=
  logs.filter (fun l => strToLower l.concept = id)

/-- The ordered pairs `(conceptIds[i], conceptIds[j])` with `i < j`, in the
order of the source's double loop. -/
def pairsOf : List String → List (String × String)
  | [] => []
  | x :: xs => (xs.map (fun y => (x, y))) ++ pairsOf xs

/-- Edge materialization for one pair: skipped when `w < 0.05`.  (The
`edgeSet` duplicate check of the source never fires: pairs of distinct
first-occurrence keys are distinct.) -/
def mkEdge (a b : String) (logs : List SessionLog) : Option GraphEdge :=
  let w := calculateEdgeWeight a b logs
  if w < 0.05 then none
  else
    let prereq := prerequisiteStrength a b
    let type : EdgeType :=
      if prereq > 0.7 then .prerequisite
      else if prereq > 0.3 then .application
      else .similar
    some { source := a, target := b, weight := w,
           prerequisiteStrength := prereq,
           coOccurrenceRate := coOccurrenceRate a b logs,
           confusionCorrelation := confusionCorrelation a b logs,
           type := type }

def buildEdges (logs : List SessionLog) : List GraphEdge :=
  (pairsOf (conceptIdsOf logs)).filterMap (fun p => mkEdge p.1 p.2 logs)

/-- Per-node incidence count (`degreeMap`); each edge increments both of its
endpoints. -/
def edgeDegree (edges : List GraphEdge) (n : String) : ℕ :=
  (edges.filter (fun e => e.source = n)).length
    + (edges.filter (fun e => e.target = n)).length

/-- Visual state of a node (`getNodeState`). -/
structure NodeState where
  color : String
  size : ℝ
  label : String

noncomputable def getNodeState (masteryPL cognitiveLoad forgettingRisk : ℝ) :
    NodeState :=
  let effective := masteryPL * (1 - forgettingRisk * 0.4)
  let cl : String × String :=
    if effective ≥ 0.9 then ("#00ff88", "Mastered")
    else if effective ≥ 0.7 then ("#ffff00", "Proficient")
    else if cognitiveLoad > 0.8 then ("#ff4400", "Overloaded")
    else if forgettingRisk > 0.5 then ("#ff8800", "Fading")
    else if effective ≥ 0.5 then ("#44aaff", "Learning")
    else ("#cc44ff", "Developing")
  ⟨cl.1, 3 + masteryPL * 8 + cognitiveLoad * 2, cl.2⟩

structure GraphNode where
  id : String
  name : String
  category : String
  masteryPL : ℝ
  effectiveMastery : ℝ
  community : ℕ
  degree : ℕ
  color : String
  size : ℝ

/-- Node enrichment for one concept id.  `now` models `Date.now()`; the
`getLastD` default is never used because `logsFor logs id` is non-empty for
every `id ∈ conceptIdsOf logs`. -/
noncomputable def buildNode (now : ℝ) (logs : List SessionLog)
    (communities : CommMap) (edges : List GraphEdge) (id : String) : GraphNode :=
  let conceptLogs := logsFor logs id
  let latestLog := conceptLogs.getLastD ⟨"", "", false, 0, 0, 0⟩
  let avg : ℝ := ((conceptLogs.map (fun l => (l.masteryPL : ℝ))).sum) / conceptLogs.length
  let daysSince := (now - (latestLog.timestamp : ℝ)) / 86400000
  let forgetting := 1 - Real.exp (-daysSince / max 1 (conceptLogs.length : ℝ))
  let cogLoad := min 1
    (((conceptLogs.map (fun l => (l.responseTimeMs : ℝ))).sum) / (conceptLogs.length * 60000))
  let state := getNodeState avg cogLoad forgetting
  { id := id,
    name := id.capitalize,
    category := latestLog.category,
    masteryPL := avg,
    effectiveMastery := avg * (1 - forgetting * 0.4),
    community := (assocGet communities id).getD 0,
    degree := edgeDegree edges id,
    color := state.color,
    size := state.size }

/-- `buildGraph`: returns the enriched nodes and the weighted edges.  The
`now` argument models the source's calls to `Date.now()` during node
enrichment. -/
noncomputable def buildGraph (now : ℝ) (logs : List SessionLog) :
    List GraphNode × List GraphEdge :=
  let conceptIds := conceptIdsOf logs
  let edges := buildEdges logs
  let communities := louvainCluster conceptIds
    (edges.map (fun e => ⟨e.source, e.target, e.weight⟩))
  (conceptIds.map (buildNode now logs communities edges), edges)

-- ── Mastery state and stability (`updateStability`) ────────────────────────

structure MasteryState where
  pL : ℝ
  stability : ℝ
  reviewCount : ℕ
  lastReviewMs : ℝ

/-- `updateStability`: only correct answers grow stability (capped at 365),
bump the review count and stamp `lastReviewMs` with `Date.now()` — modelled
by the explicit `now` argument.  An incorrect answer returns the state
object unchanged. -/
noncomputable def updateStability (now : ℝ) (state : MasteryState)
    (correct : Bool) : MasteryState :=
  if !correct then state
  else
    { state with
      stability := min (state.stability * Real.exp (0.1 * state.pL)) 365,
      reviewCount := state.reviewCount + 1,
      lastReviewMs := now }

-- ── Behavioral analyzer (lms-store.ts behavioral module) ───────────────────

structure BehaviorSignals where
  tabSwitches : ℕ
  pasteEvents : ℕ
  fastHardAnswers : ℕ
  totalQuestions : ℕ
deriving DecidableEq

structure CheatBreakdown where
  tab : ℚ
  paste : ℚ
  fastHard : ℚ
deriving DecidableEq

structure CheatRiskResult where
  score : ℚ
  flagged : Bool
  breakdown : CheatBreakdown
deriving DecidableEq

/-- `detectCheating`: weighted cheating-risk score with a zero-questions
guard returning score 0 before any division. -/
def detectCheating (signals : BehaviorSignals) : CheatRiskResult :=
  if signals.totalQuestions = 0 then ⟨0, false, ⟨0, 0, 0⟩⟩
  else
    let tabScore := min 1 ((signals.tabSwitches : ℚ) / (signals.totalQuestions * 2))
    let pasteScore := min 1 ((signals.pasteEvents : ℚ) / signals.totalQuestions)
    let fastHardScore := min 1
      ((signals.fastHardAnswers : ℚ) / max 1 ((signals.totalQuestions : ℚ) * 0.3))
    let crs := 0.3 * tabScore + 0.3 * pasteScore + 0.4 * fastHardScore
    ⟨min 1 crs, decide (crs > 0.5), ⟨tabScore, pasteScore, fastHardScore⟩⟩

inductive Mode
  | exam
  | practice
deriving DecidableEq

inductive Priority
  | low
  | medium
  | high
deriving DecidableEq

structure SocraticParams where
  mode : Mode
  isCorrect : Bool
  currentPL : ℚ
  prevPL : ℚ
  wrongStreakOnConcept : ℕ
  guessProbability : ℚ
  confidenceScore : ℚ
  timeRemainingMs : Option ℚ

structure SocraticDecision where
  shouldTrigger : Bool
  reasons : List String
  priority : Priority

/-- `shouldTriggerSocratic`: hard exits for exam mode, mastery > 0.9 and a
supplied remaining time below 60 s; otherwise a weighted rule score with
trigger threshold 2.  Reason strings elide the numeric interpolation of the
source. -/
def shouldTriggerSocratic (p : SocraticParams) : SocraticDecision :=
  if p.mode = Mode.exam then
    ⟨false, ["Exam mode — no Socratic interruptions"], Priority.low⟩
  else if p.currentPL > 0.9 then
    ⟨false, ["Concept already mastered"], Priority.low⟩
  else if (match p.timeRemainingMs with
           | some t => decide (t < 60000)
           | none => false) then
    ⟨false, ["Time constraint < 60s"], Priority.low⟩
  else
    let r1 := p.guessProbability > 0.6
    let r2 := p.wrongStreakOnConcept ≥ 2
    let r3 := p.currentPL - p.prevPL < -0.15
    let r4 := p.currentPL ≥ 0.4 && p.currentPL ≤ 0.7 && !p.isCorrect
    let r5 := p.confidenceScore < 0.3 && p.isCorrect
    let reasons :=
      (if r1 then ["Guessing detected — probe understanding"] else []) ++
      (if r2 then ["Wrong on this concept repeatedly — likely misconception"] else []) ++
      (if r3 then ["Mastery dropped — concept confusion"] else []) ++
      (if r4 then ["In active learning zone — Socratic deepening"] else []) ++
      (if r5 then ["Low confidence despite correct answer — probe reasoning"] else [])
    let triggerScore : ℕ :=
      (if r1 then 3 else 0) + (if r2 then 3 else 0) + (if r3 then 2 else 0) +
      (if r4 then 1 else 0) + (if r5 then 2 else 0)
    let priority :=
      if triggerScore ≥ 5 then Priority.high
      else if triggerScore ≥ 3 then Priority.medium
      else Priority.low
    ⟨triggerScore ≥ 2, reasons, priority⟩

-- ── IRT engine (3-parameter logistic, lms-store.ts IRT module) ─────────────

structure IRTItem where
  id : String
  a : ℝ
  b : ℝ
  c : ℝ

structure IRTResponse where
  item : IRTItem
  correct : Bool

/-- `threeParamLogistic`: P(correct | theta, a, b, c). -/
noncomputable def threeParamLogistic (theta a b c : ℝ) : ℝ :=
  c + (1 - c) / (1 + Real.exp (-a * (theta - b)))

/-- The fixed 41-point quadrature grid over `[-4, 4]`. -/
noncomputable def gridThetas : List ℝ :=
  (List.range 41).map (fun i => -4 + 8 * (i : ℝ) / 40)

/-- Standard normal prior density at a grid point. -/
noncomputable def priorAt (t : ℝ) : ℝ :=
  Real.exp (-0.5 * t * t) / Real.sqrt (2 * Real.pi)

/-- Likelihood of the response sequence at one grid point. -/
noncomputable def likelihoodAt (responses : List IRTResponse) (theta : ℝ) : ℝ :=
  responses.foldl (fun acc r =>
    let p := threeParamLogistic theta r.item.a r.item.b r.item.c
    acc * (if r.correct then p else 1 - p)) 1

/-- The total unnormalized posterior mass (the `sum` local of `updateTheta`). -/
noncomputable def posteriorSum (responses : List IRTResponse) : ℝ :=
  (gridThetas.map (fun t => likelihoodAt responses t * priorAt t)).sum

/-- `updateTheta`: EAP estimate over the grid; returns the prior unchanged
for an empty response list or when the posterior mass underflows below
`1e-15`. -/
noncomputable def updateTheta (responses : List IRTResponse)
    (priorTheta : ℝ) : ℝ :=
  if responses.length = 0 then priorTheta
  else if posteriorSum responses < 1e-15 then priorTheta
  else
    let unnormalized := gridThetas.map (fun t => likelihoodAt responses t * priorAt t)
    let posterior := unnormalized.map (fun v => v / posteriorSum responses)
    let eap := ((gridThetas.zip posterior).map (fun p => p.1 * p.2)).sum
    max (-4) (min 4 eap)

-- ── Helper lemmas ──────────────────────────────────────────────────────────

theorem strToLower_a : strToLower "a" = "a" := by decide

theorem strToLower_b : strToLower "b" = "b" := by decide

theorem dayOf_zero_ts (c cat : String) (ic : Bool) (rt m : ℚ) :
    dayOf ⟨c, cat, ic, rt, m, 0⟩ = 0 := by
  norm_num [dayOf]

-- ── C1 ─────────────────────────────────────────────────────────────────────

/-- C1: the claim that each edge component score lies in [0,1] (and hence
the combined edge weight does) is refuted by the code: with one wrong
answer on concept a and two (resp. six) wrong answers on concept b in the
same day bucket, `confusionCorrelation` returns 2, and with six wrong-b
entries `calculateEdgeWeight` returns 3/2 > 1. -/
theorem confusionCorrelation_exceeds_one :
    confusionCorrelation "a" "b"
        [⟨"a", "x", false, 0, 0, 0⟩, ⟨"b", "x", false, 0, 0, 0⟩,
         ⟨"b", "x", false, 0, 0, 0⟩] = 2 ∧
    calculateEdgeWeight "a" "b"
        [⟨"a", "x", false, 0, 0, 0⟩, ⟨"b", "x", false, 0, 0, 0⟩,
         ⟨"b", "x", false, 0, 0, 0⟩, ⟨"b", "x", false, 0, 0, 0⟩,
         ⟨"b", "x", false, 0, 0, 0⟩, ⟨"b", "x", false, 0, 0, 0⟩,
         ⟨"b", "x", false, 0, 0, 0⟩] = 3/2 := by
  constructor
  · simp [confusionCorrelation, strToLower_a, strToLower_b, dayOf_zero_ts]
  · simp [calculateEdgeWeight, ALPHA, BETA, GAMMA, confusionCorrelation,
      coOccurrenceRate, prerequisiteStrength, PREREQUISITE_STRENGTH,
      strToLower_a, strToLower_b, dayOf_zero_ts, dayHasConcept,
      firstDedup, firstDedupAux, assocGet, Option.orElse]
    norm_num

-- ── C2 ─────────────────────────────────────────────────────────────────────

/-- C2 (counterexample): `updateMastery(p, true) > p` fails inside `(0,1)`:
at `p = 0.9999` the output clamp returns exactly `0.9999`, not a strictly
larger value. -/
theorem updateMastery_not_increasing_at_clamp :
    (0 : ℚ) < 9999/10000 ∧ (9999 : ℚ)/10000 < 1 ∧
      ¬ (9999/10000 < updateMastery (9999/10000) true) := by
  refine ⟨by norm_num, by norm_num, ?_⟩
  norm_num [updateMastery, P_SLIP, P_GUESS, P_LEARN]


/-- C2 (amended): for every `p` with `0 < p < 0.9999`, a correct answer
strictly increases mastery: `p < updateMastery p true` (at `p ≥ 0.9999` the
output clamp caps the result at exactly `0.9999`). -/
theorem updateMastery_correct_increases (p : ℚ) (h0 : 0 < p)
    (h1 : p < 9999/10000) : p < updateMastery p true := by
  have hq : (0 : ℚ) < p * (1 - P_SLIP) + (1 - p) * P_GUESS := by
    simp only [P_SLIP, P_GUESS]
    nlinarith
  have hne : p * (1 - P_SLIP) + (1 - p) * P_GUESS ≠ 0 := ne_of_gt hq
  have h4 : p - 9/100 < (91/100 * (p * (1 - P_SLIP)))
      / (p * (1 - P_SLIP) + (1 - p) * P_GUESS) := by
    rw [lt_div_iff₀ hq]
    simp only [P_SLIP, P_GUESS]
    nlinarith [mul_pos (by linarith : (0:ℚ) < 1 - p)
      (by linarith : (0:ℚ) < 700 * p + 18)]
  rw [mul_div_assoc] at h4
  have hmain : updateMastery p true
      = min 0.9999 (max 0.0001 (p * (1 - P_SLIP) / (p * (1 - P_SLIP) + (1 - p) * P_GUESS)
        + (1 - p * (1 - P_SLIP) / (p * (1 - P_SLIP) + (1 - p) * P_GUESS)) * P_LEARN)) := by
    simp only [updateMastery, if_neg hne, if_true]
  have hnext : p < p * (1 - P_SLIP) / (p * (1 - P_SLIP) + (1 - p) * P_GUESS)
      + (1 - p * (1 - P_SLIP) / (p * (1 - P_SLIP) + (1 - p) * P_GUESS)) * P_LEARN := by
    simp only [P_LEARN]
    set X := p * (1 - P_SLIP) / (p * (1 - P_SLIP) + (1 - p) * P_GUESS) with hX
    linarith [h4]
  rw [hmain]
  exact lt_min (lt_of_lt_of_le h1 (by norm_num)) (lt_max_of_lt_right hnext)

/-- C2 witness. -/
theorem updateMastery_correct_increases_witness :
    (0 : ℚ) < 1/2 ∧ (1/2 : ℚ) < 9999/10000 ∧ (1/2 : ℚ) < updateMastery (1/2) true :=
  ⟨by norm_num, by norm_num,
    updateMastery_correct_increases (1/2) (by norm_num) (by norm_num)⟩

-- ── C7 ─────────────────────────────────────────────────────────────────────

/-- C7: starting from mastery 0.3, three consecutive correct answers under
the galaxy BKT constants (slip 0.1, guess 0.2, pLearn 0.3) give a strictly
increasing sequence that exceeds 0.7 by the third update. -/
theorem bktUpdate_three_correct_increasing :
    (3 : ℚ)/10 < bktUpdate (3/10) true ∧
    bktUpdate (3/10) true < bktUpdate (bktUpdate (3/10) true) true ∧
    bktUpdate (bktUpdate (3/10) true) true
      < bktUpdate (bktUpdate (bktUpdate (3/10) true) true) true ∧
    (7 : ℚ)/10 < bktUpdate (bktUpdate (bktUpdate (3/10) true) true) true := by
  refine ⟨?_, ?_, ?_, ?_⟩ <;>
    norm_num [bktUpdate, BKT_P_SLIP, BKT_P_GUESS, BKT_P_LEARN]

-- ── C9 ─────────────────────────────────────────────────────────────────────

/-- C9: with zero questions answered, `detectCheating` returns score 0 and
no flag, without any division by the session length. -/
theorem detectCheating_zero_questions (s : BehaviorSignals)
    (h : s.totalQuestions = 0) :
    (detectCheating s).score = 0 ∧ (detectCheating s).flagged = false := by
  simp [detectCheating, h]

/-- C9 witness. -/
theorem detectCheating_zero_questions_witness :
    (⟨0, 0, 0, 0⟩ : BehaviorSignals).totalQuestions = 0 ∧
      (detectCheating ⟨0, 0, 0, 0⟩).score = 0 ∧
      (detectCheating ⟨0, 0, 0, 0⟩).flagged = false :=
  ⟨rfl, detectCheating_zero_questions ⟨0, 0, 0, 0⟩ rfl⟩

-- ── C10 ────────────────────────────────────────────────────────────────────

/-- C10: an incorrect answer leaves the whole mastery state untouched:
`updateStability` returns the input state itself, including `pL`,
`reviewCount` and `lastReviewMs`, for any clock reading. -/
theorem updateStability_incorrect_noop (now : ℝ) (s : MasteryState) :
    updateStability now s false = s := by
  simp [updateStability]

-- ── C6 ─────────────────────────────────────────────────────────────────────

/-- C6: the intervention decision never triggers in exam mode, when current
mastery exceeds 0.9, or when a supplied remaining time is below 60000 ms,
regardless of all other signals. -/
theorem socratic_hard_exits (p : SocraticParams)
    (h : p.mode = Mode.exam ∨ (0.9 : ℚ) < p.currentPL ∨
         ∃ t, p.timeRemainingMs = some t ∧ t < 60000) :
    (shouldTriggerSocratic p).shouldTrigger = false := by
  unfold shouldTriggerSocratic
  split_ifs with h1 h2 h3
  · rfl
  · rfl
  · rfl
  · exfalso
    rcases h with h | h | ⟨t, ht, hlt⟩
    · exact h1 h
    · exact h2 h
    · rw [ht] at h3
      simp only [decide_eq_true_eq] at h3
      exact h3 hlt

/-- C6 witness. -/
theorem socratic_hard_exits_witness :
    ((⟨Mode.exam, false, 0, 0, 5, 1, 0, none⟩ : SocraticParams).mode = Mode.exam) ∧
      (shouldTriggerSocratic ⟨Mode.exam, false, 0, 0, 5, 1, 0, none⟩).shouldTrigger
        = false :=
  ⟨rfl, socratic_hard_exits _ (Or.inl rfl)⟩

-- ── C3 ─────────────────────────────────────────────────────────────────────

/-- C3 (counterexample): `updateStability` does not depend only on its
explicit arguments: on a correct answer it stamps `lastReviewMs` with
`Date.now()`, so the same call at two clock readings returns different
states. -/
theorem clock_reading_distinguishes_updateStability :
    updateStability 0 ⟨0.3, 1, 0, 0⟩ true ≠ updateStability 1 ⟨0.3, 1, 0, 0⟩ true := by
  intro h
  have h2 := congrArg MasteryState.lastReviewMs h
  simp [updateStability] at h2

/-- C3 (amended): every engine operation is deterministic once the clock
reading is an explicit input; moreover the clock influences only
`updateStability`'s `lastReviewMs` stamp and `buildGraph`'s node
enrichment — the edge list and the non-timestamp mastery fields are
identical across clock readings. -/
theorem engine_determinism_given_clock (now₁ now₂ : ℝ) (logs : List SessionLog)
    (s : MasteryState) (c : Bool) :
    (buildGraph now₁ logs).2 = (buildGraph now₂ logs).2 ∧
      (updateStability now₁ s c).pL = (updateStability now₂ s c).pL ∧
      (updateStability now₁ s c).stability = (updateStability now₂ s c).stability ∧
      (updateStability now₁ s c).reviewCount = (updateStability now₂ s c).reviewCount := by
  refine ⟨rfl, ?_, ?_, ?_⟩ <;> cases c <;> simp [updateStability]

-- ── C8 ─────────────────────────────────────────────────────────────────────

/-- C8: the ability estimator returns the prior unchanged on an empty
response list, and likewise whenever the total posterior mass over the
quadrature grid falls below `1e-15`. -/
theorem updateTheta_prior_fallback :
    (∀ t0 : ℝ, updateTheta [] t0 = t0) ∧
      ∀ (rs : List IRTResponse) (t0 : ℝ),
        posteriorSum rs < 1e-15 → updateTheta rs t0 = t0 := by
  constructor
  · intro t0
    simp [updateTheta]
  · intro rs t0 h
    unfold updateTheta
    rcases eq_or_ne rs.length 0 with h1 | h1
    · rw [if_pos h1]
    · rw [if_neg h1, if_pos h]

/-- A single wrong answer on an item with pseudo-guessing parameter 1 makes
every grid likelihood vanish, so the posterior mass is exactly 0. -/
theorem posteriorSum_degenerate :
    posteriorSum [⟨⟨"q1", 1, 0, 1⟩, false⟩] = 0 := by
  simp [posteriorSum, likelihoodAt, threeParamLogistic]

/-- C8 witness. -/
theorem updateTheta_prior_fallback_witness :
    posteriorSum [⟨⟨"q1", 1, 0, 1⟩, false⟩] < 1e-15 ∧
      updateTheta [⟨⟨"q1", 1, 0, 1⟩, false⟩] 0.37 = 0.37 ∧
      updateTheta [] (-2.5) = -2.5 :=
  ⟨by rw [posteriorSum_degenerate]; norm_num,
   updateTheta_prior_fallback.2 _ _ (by rw [posteriorSum_degenerate]; norm_num),
   updateTheta_prior_fallback.1 _⟩

-- ── Louvain lemmas, C4 and C5 ─────────────────────────────────────────────

theorem assocGet_assocSet {α β : Type} [DecidableEq α] (m : List (α × β))
    (k k' : α) (v : β) :
    assocGet (assocSet m k v) k' = if k = k' then some v else assocGet m k' := by
  induction m with
  | nil => simp [assocGet, assocSet]
  | cons p rest ih =>
      obtain ⟨pk, pv⟩ := p
      by_cases hpk : pk = k
      · subst hpk
        simp only [assocSet, if_pos rfl, assocGet]
        by_cases hk' : pk = k'
        · simp [hk']
        · simp [hk', assocGet]
      · simp only [assocSet, if_neg hpk, assocGet]
        by_cases hk' : pk = k'
        · subst hk'
          simp [Ne.symm hpk]
        · simp [hk', ih]

theorem isSome_assocGet_assocSet {α β : Type} [DecidableEq α] (m : List (α × β))
    (k x : α) (v : β) (h : (assocGet m x).isSome = true) :
    (assocGet (assocSet m k v) x).isSome = true := by
  rw [assocGet_assocSet]
  split_ifs
  · rfl
  · exact h

theorem assocGet_initCommsAux_of_not_mem (ns : List String) (x : String)
    (hx : x ∉ ns) :
    ∀ (k : ℕ) (m : CommMap), assocGet (initCommsAux ns k m) x = assocGet m x := by
  induction ns with
  | nil => intro k m; rfl
  | cons n rest ih =>
      intro k m
      have hxr : x ∉ rest := fun h => hx (List.mem_cons_of_mem n h)
      have hxn : n ≠ x := fun h => hx (h ▸ List.mem_cons_self n rest)
      simp only [initCommsAux]
      rw [ih hxr, assocGet_assocSet, if_neg hxn]

theorem assocGet_initCommsAux_get (ns : List String) (hnd : ns.Nodup) :
    ∀ (k : ℕ) (m : CommMap) (i : ℕ) (h : i < ns.length),
      assocGet (initCommsAux ns k m) (ns.get ⟨i, h⟩) = some (k + i) := by
  induction ns with
  | nil => intro k m i h; exact absurd h (Nat.not_lt_zero i)
  | cons n rest ih =>
      intro k m i h
      rcases List.nodup_cons.mp hnd with ⟨hn, hrest⟩
      cases i with
      | zero =>
          simp only [initCommsAux, List.get]
          rw [assocGet_initCommsAux_of_not_mem rest n hn,
            assocGet_assocSet, if_pos rfl, Nat.add_zero]
      | succ j =>
          have hj : j < rest.length := Nat.lt_of_succ_lt_succ h
          simp only [initCommsAux, List.get]
          rw [ih hrest (k + 1) (assocSet m n k) j hj]
          congr 1
          omega

theorem isSome_initCommsAux (ns : List String) (x : String) :
    ∀ (k : ℕ) (m : CommMap), (x ∈ ns ∨ (assocGet m x).isSome = true) →
      (assocGet (initCommsAux ns k m) x).isSome = true := by
  induction ns with
  | nil =>
      intro k m h
      exact h.resolve_left (List.not_mem_nil x)
  | cons n rest ih =>
      intro k m h
      simp only [initCommsAux]
      apply ih
      rcases h with h | h
      · rcases List.mem_cons.mp h with h | h
        · right
          subst h
          rw [assocGet_assocSet, if_pos rfl]
          rfl
        · left; exact h
      · right
        exact isSome_assocGet_assocSet m n x _ h

theorem isSome_stepNode (nodes : List String) (adj : AdjMap) (tw : ℚ)
    (comms : CommMap) (node x : String)
    (h : (assocGet comms x).isSome = true) :
    (assocGet (stepNode nodes adj tw comms node).1 x).isSome = true := by
  simp only [stepNode]
  split_ifs
  · exact isSome_assocGet_assocSet comms node x _ h
  · exact h

theorem isSome_foldl_passStep (nodes : List String) (adj : AdjMap) (tw : ℚ)
    (x : String) :
    ∀ (ns : List String) (acc : CommMap × Bool),
      (assocGet acc.1 x).isSome = true →
      (assocGet (List.foldl (passStep nodes adj tw) acc ns).1 x).isSome = true := by
  intro ns
  induction ns with
  | nil => intro acc h; exact h
  | cons n rest ih =>
      intro acc h
      rw [List.foldl_cons]
      exact ih _ (isSome_stepNode nodes adj tw acc.1 n x h)

theorem isSome_louvainLoop (nodes : List String) (adj : AdjMap) (tw : ℚ)
    (x : String) :
    ∀ (fuel : ℕ) (comms : CommMap), (assocGet comms x).isSome = true →
      (assocGet (louvainLoop nodes adj tw fuel comms) x).isSome = true := by
  intro fuel
  induction fuel with
  | zero => intro comms h; exact h
  | succ f ih =>
      intro comms h
      simp only [louvainLoop]
      split_ifs
      · exact ih _ (isSome_foldl_passStep nodes adj tw x nodes (comms, false) h)
      · exact isSome_foldl_passStep nodes adj tw x nodes (comms, false) h

theorem isSome_renumberAux (x : String) :
    ∀ (comms : CommMap) (idMap : List (ℕ × ℕ)) (next : ℕ),
      (assocGet (renumberAux comms idMap next) x).isSome
        = (assocGet comms x).isSome := by
  intro comms
  induction comms with
  | nil => intro idMap next; rfl
  | cons p rest ih =>
      intro idMap next
      obtain ⟨n, c⟩ := p
      simp only [renumberAux]
      cases hg : assocGet idMap c with
      | some newId =>
          simp only [assocGet]
          by_cases hn : n = x
          · simp [hn]
          · simp [hn, ih]
      | none =>
          simp only [assocGet]
          by_cases hn : n = x
          · simp [hn]
          · simp [hn, ih]

/-- C5: when the total edge weight is 0, `louvainCluster` returns every
node of the (duplicate-free) node list in its own singleton community, the
ids being exactly the dense range `0 .. n-1` in node order; the zero-weight
guard returns before any division by the total weight. -/
theorem louvain_singleton_communities_zero_weight (nodes : List String)
    (edges : List WEdge) (hnd : nodes.Nodup)
    (hw : (edges.map WEdge.weight).sum = 0) :
    ∀ (i : ℕ) (h : i < nodes.length),
      assocGet (louvainCluster nodes edges) (nodes.get ⟨i, h⟩) = some i := by
  intro i h
  unfold louvainCluster
  rw [if_pos hw]
  have := assocGet_initCommsAux_get nodes hnd 0 [] i h
  rwa [Nat.zero_add] at this

/-- C5 witness. -/
theorem louvain_singleton_communities_zero_weight_witness :
    (["a", "b"] : List String).Nodup ∧
      ((List.map WEdge.weight []).sum = 0) ∧
      assocGet (louvainCluster ["a", "b"] [])
        ((["a", "b"] : List String).get ⟨0, by norm_num⟩) = some 0 ∧
      assocGet (louvainCluster ["a", "b"] [])
        ((["a", "b"] : List String).get ⟨1, by norm_num⟩) = some 1 :=
  ⟨by decide, rfl,
   louvain_singleton_communities_zero_weight ["a", "b"] [] (by decide) rfl 0 (by norm_num),
   louvain_singleton_communities_zero_weight ["a", "b"] [] (by decide) rfl 1 (by norm_num)⟩

/-- C4: `louvainCluster` is total: the greedy phase is bounded by at most
20 passes by construction (`louvainLoop` recurses structurally on the
remaining fuel), a pass in which no node moves ends the loop immediately,
and the result assigns a community to every node of the input. -/
theorem louvain_total_assignment (nodes : List String) (edges : List WEdge) :
    (∀ n, n ∈ nodes → (assocGet (louvainCluster nodes edges) n).isSome = true) ∧
    (∀ (adj : AdjMap) (tw : ℚ) (fuel : ℕ) (comms : CommMap),
      (louvainPass nodes adj tw comms).2 = false →
        louvainLoop nodes adj tw (fuel + 1) comms
          = (louvainPass nodes adj tw comms).1) := by
  constructor
  · intro n hn
    simp only [louvainCluster]
    split_ifs with hw
    · exact isSome_initCommsAux nodes n 0 [] (Or.inl hn)
    · rw [renumber, isSome_renumberAux]
      exact isSome_louvainLoop nodes _ _ n 20 _
        (isSome_initCommsAux nodes n 0 [] (Or.inl hn))
  · intro adj tw fuel comms h
    simp only [louvainLoop, h, if_false, Bool.false_eq_true]

/-- C4 witness. -/
theorem louvain_total_assignment_witness :
    ("a" ∈ (["a", "b"] : List String)) ∧
      (assocGet (louvainCluster ["a", "b"] [⟨"a", "b", 1⟩]) "a").isSome = true ∧
      ((louvainPass [] [] 1 []).2 = false ∧
        louvainLoop [] [] 1 1 [] = (louvainPass [] [] 1 []).1) :=
  ⟨by decide,
   (louvain_total_assignment ["a", "b"] [⟨"a", "b", 1⟩]).1 "a" (by decide),
   rfl, (louvain_total_assignment [] []).2 [] 1 0 [] rfl⟩
